import Mathlib

/-!
Verification of the gitHelper plugin subsystem and bisection engine.

This file gives a shallow embedding, in Lean 4, of the parts of the
gitHelper repository that the specification talks about:

* `git_helper/plugin_manager.py` (`PluginManager`: `discover`, `enable`,
  `disable`, `run_plugin`) together with the `Plugin` dataclass it checks
  registration results against;
* `git_helper/utils/settings.py` (`SettingsManager`: `reload`, `save`,
  `disable_plugin`, `enable_plugin`, `disabled_plugins`);
* `git_helper/diagnostics/__init__.py` (`DiagnosticEngine`:
  `find_breaking_commit`, `_parse_first_bad`, `_current_bisect_commit`,
  `summarize_diff`, `generate_report`);
* `git_helper/plugins/code_break_analyzer.py` (the `register` hook and the
  `run` closure of the CodeBreakAnalyzer plugin).

External effects are made explicit: subprocess execution is modelled by a
caller-supplied stateful process runner, and every engine operation also
returns the exact sequence of command lines it handed to that runner; the
persisted settings file is modelled by an explicit `Store` value threaded
through the settings operations; module loading and the duck-typed
registration hook of a plugin candidate are modelled by a per-candidate
outcome describing how the hook behaves when called with zero arguments
and with one argument.

Python string operations used by the code (`str.lower`, `str.split`,
`str.splitlines`, `str.strip`, substring membership, string ordering) are
re-implemented here by structural recursion over the character list of a
`String`, so that every definition evaluates inside the kernel.
-/

/-! ### Python string primitives -/

/-- Characters that Python `str.split()` / `str.strip()` treat as whitespace
(restricted to the ASCII whitespace characters, which is all the repository
ever produces: space, tab, newline, carriage return, vertical tab, form feed). -/
def py_is_ws (c : Char) : Bool :=
  c == ' ' || c == '\t' || c == '\n' || c == '\r' || c.toNat == 11 || c.toNat == 12

/-- ASCII lowering of one character; models what Python `str.lower()` does on
the ASCII range (plugin names and git output in this repository are ASCII). -/
def lower_char (c : Char) : Char :=
  if 65 ≤ c.toNat ∧ c.toNat ≤ 90 then Char.ofNat (c.toNat + 32) else c

/-- Models Python `str.lower()`. -/
def py_lower (s : String) : String :=
  ⟨s.data.map lower_char⟩

/-- String concatenation through the character lists (so that it reduces in
the kernel); models Python string concatenation and f-string splicing. -/
def str_cat (a b : String) : String :=
  ⟨a.data ++ b.data⟩

/-- Helper for `py_tokens`: accumulates the current (reversed) token while
scanning the character list, splitting at whitespace runs. -/
def tokens_aux : List Char → List Char → List (List Char)
  | [], acc => if acc = [] then [] else [acc.reverse]
  | c :: cs, acc =>
    if py_is_ws c then
      if acc = [] then tokens_aux cs [] else acc.reverse :: tokens_aux cs []
    else tokens_aux cs (c :: acc)

/-- Models Python `str.split()` with no separator argument: the list of
maximal whitespace-free runs, with no empty tokens. -/
def py_tokens (s : String) : List String :=
  (tokens_aux s.data []).map (fun l => ⟨l⟩)

/-- Models Python `line.split()[0]` guarded by a non-emptiness check: the
first whitespace-delimited token of a string, if any. -/
def first_token (s : String) : Option String :=
  (py_tokens s).head?

/-- Helper for `py_splitlines`: splits a character list at newline
characters; a trailing newline does not contribute a final empty line,
matching Python `str.splitlines`. -/
def lines_aux : List Char → List Char → List (List Char)
  | [], acc => if acc = [] then [] else [acc.reverse]
  | c :: cs, acc =>
    if c = '\n' then acc.reverse :: lines_aux cs []
    else lines_aux cs (c :: acc)

/-- Models Python `str.splitlines()` for LF-separated text (the only line
terminator the modelled code paths produce). -/
def py_splitlines (s : String) : List String :=
  (lines_aux s.data []).map (fun l => ⟨l⟩)

/-- Models Python `str.strip()`: removes leading and trailing whitespace. -/
def py_strip (s : String) : String :=
  ⟨((s.data.dropWhile py_is_ws).reverse.dropWhile py_is_ws).reverse⟩

/-- Helper for `py_contains`: does `needle` occur as a contiguous
subsequence of `hay`? -/
def contains_sub : List Char → List Char → Bool
  | [], needle => needle.isEmpty
  | c :: t, needle => needle.isPrefixOf (c :: t) || contains_sub t needle

/-- Models the Python substring test `needle in hay`. -/
def py_contains (hay needle : String) : Bool :=
  contains_sub hay.data needle.data

/-- Lexicographic comparison of character lists by code point; helper for
`str_le`. -/
def chars_le : List Char → List Char → Bool
  | [], _ => true
  | _ :: _, [] => false
  | a :: as, b :: bs =>
    if a.toNat < b.toNat then true
    else if b.toNat < a.toNat then false
    else chars_le as bs

/-- Models the Python string order used by `sorted` and by the stable sort
key comparison: lexicographic by code point. -/
def str_le (a b : String) : Bool :=
  chars_le a.data b.data

theorem chars_le_total : ∀ a b : List Char, chars_le a b = true ∨ chars_le b a = true := by
  intro a
  induction a with
  | nil => intro b; exact Or.inl rfl
  | cons x xs ih =>
    intro b
    cases b with
    | nil => exact Or.inr rfl
    | cons y ys =>
      by_cases hxy : x.toNat < y.toNat
      · exact Or.inl (by simp [chars_le, hxy])
      · by_cases hyx : y.toNat < x.toNat
        · exact Or.inr (by simp [chars_le, hyx])
        · rcases ih ys with h | h
          · exact Or.inl (by simp [chars_le, hxy, hyx, h])
          · exact Or.inr (by simp [chars_le, hxy, hyx, h])

theorem chars_le_trans : ∀ a b c : List Char,
    chars_le a b = true → chars_le b c = true → chars_le a c = true := by
  intro a
  induction a with
  | nil => intro b c _ _; rfl
  | cons x xs ih =>
    intro b c hab hbc
    cases b with
    | nil => simp [chars_le] at hab
    | cons y ys =>
      cases c with
      | nil => simp [chars_le] at hbc
      | cons z zs =>
        simp only [chars_le] at hab hbc ⊢
        by_cases hxy : x.toNat < y.toNat
        · by_cases hyz : y.toNat < z.toNat
          · simp [Nat.lt_trans hxy hyz]
          · by_cases hzy : z.toNat < y.toNat
            · simp [chars_le, hyz, hzy] at hbc
            · have hyz' : y.toNat = z.toNat := Nat.le_antisymm (Nat.le_of_not_lt hzy) (Nat.le_of_not_lt hyz)
              simp [hyz' ▸ hxy]
        · by_cases hyx : y.toNat < x.toNat
          · simp [hxy, hyx] at hab
          · have hxy' : x.toNat = y.toNat := Nat.le_antisymm (Nat.le_of_not_lt hyx) (Nat.le_of_not_lt hxy)
            by_cases hyz : y.toNat < z.toNat
            · simp [hxy' ▸ hyz]
            · by_cases hzy : z.toNat < y.toNat
              · simp [chars_le, hyz, hzy] at hbc
              · have hxz : ¬ x.toNat < z.toNat := by omega
                have hzx : ¬ z.toNat < x.toNat := by omega
                simp only [hxy, hyx, if_false] at hab
                simp only [hyz, hzy, if_false] at hbc
                simp only [hxz, hzx, if_false]
                exact ih ys zs hab hbc

theorem str_le_total (a b : String) : str_le a b = true ∨ str_le b a = true :=
  chars_le_total a.data b.data

theorem str_le_trans {a b c : String} (h1 : str_le a b = true) (h2 : str_le b c = true) :
    str_le a c = true :=
  chars_le_trans a.data b.data c.data h1 h2

/-! ### Settings persistence (`git_helper/utils/settings.py`)

The JSON settings file is modelled by `Store`; only the
`"disabled_plugins"` entry is modelled, since it is the only part of the
settings the plugin subsystem reads. -/

/-- The persisted settings file, as `SettingsManager.reload` distinguishes
its states: missing file, file whose contents fail JSON parsing, JSON that
parses to a non-dict value, and a JSON dict with or without a
`disabled_plugins` key. -/
inductive Store where
  | missing
  | corrupt
  | nonDict
  | dict (disabled : Option (List String))
  deriving DecidableEq

/-- The in-memory `SettingsManager.data`, restricted to the
`disabled_plugins` entry (DEFAULT_SETTINGS gives it the empty list). -/
structure SettingsData where
  disabled_plugins : List String
  deriving DecidableEq

/-- Models Python `sorted(set(xs))` on strings: deduplicate, then sort by
code-point order. -/
def sorted_dedup (l : List String) : List String :=
  List.insertionSort (fun a b => str_le a b = true) l.dedup

/-- Models `SettingsManager.reload` (run by `__post_init__`): a missing file
is created with the defaults, unparseable JSON is replaced by the defaults
and rewritten via `save`, a non-dict JSON value or a dict without the key
falls back to the default empty disabled list without rewriting the file,
and a dict with the key is taken as is. -/
def settings_reload : Store → SettingsData × Store
  | .missing => (⟨[]⟩, .dict (some []))
  | .corrupt => (⟨[]⟩, .dict (some []))
  | .nonDict => (⟨[]⟩, .nonDict)
  | .dict none => (⟨[]⟩, .dict none)
  | .dict (some d) => (⟨d⟩, .dict (some d))

/-- Models `SettingsManager.disable_plugin`: add the name to the
disabled-set, store it sorted, and `save` the settings file. -/
def disable_plugin (sd : SettingsData) (_store : Store) (name : String) :
    SettingsData × Store :=
  let d := sorted_dedup (name :: sd.disabled_plugins)
  (⟨d⟩, .dict (some d))

/-- Models `SettingsManager.enable_plugin`: only when the name is currently
disabled, remove it, store the set sorted, and `save`; otherwise neither the
data nor the file changes. -/
def enable_plugin (sd : SettingsData) (store : Store) (name : String) :
    SettingsData × Store :=
  if sd.disabled_plugins.contains name then
    let d := sorted_dedup (sd.disabled_plugins.filter (fun x => !(x == name)))
    (⟨d⟩, .dict (some d))
  else (sd, store)

/-! ### Plugin registry (`git_helper/plugin_manager.py`)

`G` is the type of the git interface handed to plugins, `A` the type of the
frontend app context. -/

/-- The `Plugin` dataclass of `neogit_tui/plugins/__init__.py`, which
`PluginManager.discover` checks registration results against with
`isinstance`: a name, a description, and a run callable taking the git
interface and the app context and returning a string. -/
structure Plugin (G A : Type) where
  name : String
  description : String
  run : G → A → String

/-- The `PluginState` dataclass of `git_helper/plugin_manager.py`. -/
structure PluginState (G A : Type) where
  plugin : Plugin G A
  enabled : Bool := true

/-- A Python exception class, as far as the discovery loop distinguishes
them: `TypeError` (retried with the git argument) versus any other
exception. -/
inductive PyError where
  | typeError
  | otherError
  deriving DecidableEq

/-- The behaviour of one call to a candidate module's `register` attribute:
it either raises (a `TypeError` or some other exception) or returns a value
that either is or is not an instance of the `Plugin` dataclass. -/
inductive CallResult (G A : Type) where
  | raises (isTypeError : Bool)
  | returns (value : Option (Plugin G A))

/-- What `_import_plugin` plus the `getattr`/`callable` checks yield for one
directory entry: not an importable module (wrong kind of entry, missing
loader, or an exception while executing the module), a module without a
callable `register` attribute, or a callable `register` whose behaviour on
a zero-argument call and on a one-argument call is given. -/
inductive LoadOutcome (G A : Type) where
  | notModule
  | noRegisterHook
  | hook (zeroArg oneArg : CallResult G A)

/-- One directory entry of a search path: its file name and what loading it
produces. Entries are listed in the order Python's `sorted(path.iterdir())`
visits them. -/
structure Entry (G A : Type) where
  name : String
  load : LoadOutcome G A

/-- Models wrapping a successfully registered value: an `isinstance` failure
is skipped, and a `Plugin` is wrapped in a `PluginState` whose `enabled`
flag is true exactly when its name is not in the disabled-set. -/
def wrap_registered {G A : Type} (disabled : List String) :
    Option (Plugin G A) → Option (PluginState G A)
  | some p => some { plugin := p, enabled := !(disabled.contains p.name) }
  | none => none

/-- Models the body of the discovery loop for one entry. Names starting
with a double underscore are skipped; non-modules and modules without a
callable `register` are skipped; `register()` is tried first, and only a
`TypeError` triggers the retry `register(self.git)` — an exception raised
by that retry escapes the `except Exception` clause (Python does not catch
exceptions raised inside an earlier handler of the same `try`) and
propagates out of `discover`. -/
def register_entry {G A : Type} (disabled : List String) (e : Entry G A) :
    Except PyError (Option (PluginState G A)) :=
  if e.name.data.take 2 = ['_', '_'] then .ok none
  else
    match e.load with
    | .notModule => .ok none
    | .noRegisterHook => .ok none
    | .hook z o =>
      match z with
      | .returns v => .ok (wrap_registered disabled v)
      | .raises false => .ok none
      | .raises true =>
        match o with
        | .returns v => .ok (wrap_registered disabled v)
        | .raises isTE => .error (if isTE then .typeError else .otherError)

/-- Models the inner discovery loop over the entries of one search path,
appending the surviving `PluginState`s in order; a propagating exception
aborts the whole run. -/
def collect_entries {G A : Type} (disabled : List String) :
    List (Entry G A) → Except PyError (List (PluginState G A))
  | [] => .ok []
  | e :: es =>
    match register_entry disabled e with
    | .error err => .error err
    | .ok none => collect_entries disabled es
    | .ok (some s) =>
      match collect_entries disabled es with
      | .error err => .error err
      | .ok rest => .ok (s :: rest)

/-- Models the outer discovery loop over all existing search paths (a path
that does not exist contributes no entry list). -/
def collect_paths {G A : Type} (disabled : List String) :
    List (List (Entry G A)) → Except PyError (List (PluginState G A))
  | [] => .ok []
  | p :: ps =>
    match collect_entries disabled p with
    | .error err => .error err
    | .ok states =>
      match collect_paths disabled ps with
      | .error err => .error err
      | .ok rest => .ok (states ++ rest)

/-- The sort key of `discover`: the plugin name lowered, models
`state.plugin.name.lower()`. -/
def state_key {G A : Type} (s : PluginState G A) : String :=
  py_lower s.plugin.name

/-- Models `discovered.sort(key=lambda state: state.plugin.name.lower())`:
Python's sort is stable, and a stable sort by a fixed key is unique, so
insertion sort with the non-strict key comparison computes it. -/
def sort_states {G A : Type} (l : List (PluginState G A)) : List (PluginState G A) :=
  List.insertionSort (fun a b => str_le (state_key a) (state_key b) = true) l

/-- The `PluginManager` object: the git interface, the settings manager's
data, the search paths (each an entry list in iteration order), and the
`_loaded` cache. -/
structure PluginManager (G A : Type) where
  git : G
  settings : SettingsData
  search_paths : List (List (Entry G A))
  loaded : Option (List (PluginState G A))

/-- Models `PluginManager.discover`: return the cache when it exists and
`force` is false; otherwise run the discovery loops, sort the result by
case-insensitively lowered name, cache it, and return it. A propagating
registration exception leaves the cache untouched. -/
def discover {G A : Type} (pm : PluginManager G A) (force : Bool) :
    Except PyError (List (PluginState G A) × PluginManager G A) :=
  match pm.loaded, force with
  | some cached, false => .ok (cached, pm)
  | _, _ =>
    match collect_paths pm.settings.disabled_plugins pm.search_paths with
    | .error err => .error err
    | .ok states =>
      let sorted := sort_states states
      .ok (sorted, { pm with loaded := some sorted })

/-- Models `PluginManager.enable`: update the settings (and the persisted
store) and drop the cache. -/
def pm_enable {G A : Type} (pm : PluginManager G A) (store : Store) (name : String) :
    PluginManager G A × Store :=
  let r := enable_plugin pm.settings store name
  ({ pm with settings := r.1, loaded := none }, r.2)

/-- Models `PluginManager.disable`: update the settings (and the persisted
store) and drop the cache. -/
def pm_disable {G A : Type} (pm : PluginManager G A) (store : Store) (name : String) :
    PluginManager G A × Store :=
  let r := disable_plugin pm.settings store name
  ({ pm with settings := r.1, loaded := none }, r.2)

/-- Models constructing a fresh `PluginManager` whose `SettingsManager`
reads the given persisted store (`SettingsManager.__post_init__` runs
`reload`); the cache starts empty. -/
def mk_manager {G A : Type} (git : G) (paths : List (List (Entry G A))) (store : Store) :
    PluginManager G A × Store :=
  let r := settings_reload store
  ({ git := git, settings := r.1, search_paths := paths, loaded := none }, r.2)

/-- The error outcomes of `PluginManager.run_plugin`: a propagated discovery
exception, or the single `ValueError` raised when no enabled plugin bears
the requested name — the `PluginNotFound` error kind of the specification,
carrying the requested name (the code formats it into the message
string). -/
inductive InvokeError where
  | discoveryFailure (e : PyError)
  | pluginNotFound (name : String)

/-- Models `PluginManager.run_plugin`: walk the discovery snapshot (using
the cache if valid), return the run result of the first state whose plugin
name equals the request and which is enabled, and raise otherwise. -/
def run_plugin {G A : Type} (pm : PluginManager G A) (name : String) (app : A) :
    Except InvokeError (String × PluginManager G A) :=
  match discover pm false with
  | .error err => .error (.discoveryFailure err)
  | .ok (states, pm') =>
    match states.find? (fun st => st.plugin.name == name && st.enabled) with
    | some st => .ok (st.plugin.run pm'.git app, pm')
    | none => .error (.pluginNotFound name)

/-! ### Bisection engine (`git_helper/diagnostics/__init__.py`)

Subprocess execution is modelled by a stateful process runner; the engine
additionally returns the list of command lines it executed, in order. -/

/-- What `subprocess.run(..., capture_output=True, text=True)` yields. -/
structure ProcResult where
  returncode : Nat
  stdout : String
  stderr : String

/-- A stateful process runner: from a runner state and a command line, the
completed process and the next runner state. Quantifying theorems over the
runner and its state type covers every behaviour of the external git
binary, including responses that change between repeated identical
commands. -/
def Runner (σ : Type) : Type :=
  σ → List String → ProcResult × σ

/-- The arguments of `DiagnosticEngine.find_breaking_commit`, together with
the two environment facts the code branches on: whether
`ensure_repository` succeeds and whether `shutil.which` finds pytest. -/
structure BisectConfig where
  repo_ok : Bool
  known_good : Option String
  known_bad : String
  test_command : Option String
  pytest_on_path : Bool

/-- The `git bisect reset` command line (run with `check=False`). -/
def reset_cmd : List String :=
  ["git", "bisect", "reset"]

/-- The `git bisect start` command line: the bad revision, then the good
one when supplied. -/
def start_cmd (bad : String) (good : Option String) : List String :=
  ["git", "bisect", "start", bad] ++ (match good with | some g => [g] | none => [])

/-- The `git bisect bad` command line. -/
def bad_cmd (bad : String) : List String :=
  ["git", "bisect", "bad", bad]

/-- The `git bisect good` command line. -/
def good_cmd (good : String) : List String :=
  ["git", "bisect", "good", good]

/-- The `git bisect visualize --oneline` command line. -/
def visualize_cmd : List String :=
  ["git", "bisect", "visualize", "--oneline"]

/-- The `git bisect run` command line: the caller-supplied test command via
`bash -lc`, or pytest when it is on the search path, or `python -m pytest`
otherwise. -/
def run_step_cmd (cfg : BisectConfig) : List String :=
  ["git", "bisect", "run"] ++
    (match cfg.test_command with
     | some tc => ["bash", "-lc", tc]
     | none => if cfg.pytest_on_path then ["pytest"] else ["python", "-m", "pytest"])

/-- Models the message of the `GitCommandError` raised from a
`CalledProcessError`: stripped stderr, else stripped stdout, else the
exception text. -/
def called_process_message (r : ProcResult) : String :=
  if py_strip r.stderr ≠ "" then py_strip r.stderr
  else if py_strip r.stdout ≠ "" then py_strip r.stdout
  else "CalledProcessError"

/-- Models `DiagnosticEngine._parse_first_bad`: scan the lines for the
first one containing the phrase, and take its first whitespace-delimited
token. (When such a line exists it contains a non-whitespace character, so
the Python indexing `line.split()[0]` cannot fail.) -/
def parse_first_bad (output : String) : Option String :=
  match (py_splitlines output).find?
      (fun line => py_contains line "is the first bad commit") with
  | some line => first_token line
  | none => none

/-- Models `DiagnosticEngine._current_bisect_commit` applied to the result
of the visualize command: `None` on a nonzero exit code, otherwise the
first token of the first line that has one (Python's
`line.strip().split()` equals `line.split()`, so the strip is dropped). -/
def current_bisect_commit (r : ProcResult) : Option String :=
  if r.returncode ≠ 0 then none
  else (py_splitlines r.stdout).findSome? (fun line => first_token line)

/-- The success result string of `find_breaking_commit`. -/
def success_message (commit : String) : String :=
  str_cat commit " identified as the first bad commit."

/-- The inconclusive result string of `find_breaking_commit`. -/
def inconclusive_message : String :=
  "Unable to determine the first bad commit. Review bisect output manually."

/-- Models the second `try` block of `find_breaking_commit` together with
its `finally`: run the bisect-run step, parse its combined stdout+stderr,
on failure fall back to the visualize command, always end with a reset, and
return the result string (the inconclusive case returns normally). `tr` is
the trace of commands already executed. -/
def run_phase {σ : Type} (r : Runner σ) (s : σ) (tr : List (List String))
    (cfg : BisectConfig) : Except String String × List (List String) × σ :=
  let step1 := r s (run_step_cmd cfg)
  let output := str_cat step1.1.stdout step1.1.stderr
  match parse_first_bad output with
  | some c =>
    let step2 := r step1.2 reset_cmd
    (.ok (success_message c), tr ++ [run_step_cmd cfg, reset_cmd], step2.2)
  | none =>
    let vstep := r step1.2 visualize_cmd
    let rstep := r vstep.2 reset_cmd
    match current_bisect_commit vstep.1 with
    | some c =>
      (.ok (success_message c), tr ++ [run_step_cmd cfg, visualize_cmd, reset_cmd], rstep.2)
    | none =>
      (.ok inconclusive_message, tr ++ [run_step_cmd cfg, visualize_cmd, reset_cmd], rstep.2)

/-- Models `DiagnosticEngine.find_breaking_commit`: check the repository,
reset unconditionally, start the bisection, mark the bad bound, mark the
good bound when supplied — a nonzero exit of any of these three raises
`GitCommandError` immediately (the first `try` block has no `finally`) —
and otherwise enter the run phase. -/
def find_breaking_commit {σ : Type} (r : Runner σ) (s : σ) (cfg : BisectConfig) :
    Except String String × List (List String) × σ :=
  if cfg.repo_ok = false then (.error "not a git repository", [], s)
  else
    let rstep := r s reset_cmd
    let sstep := r rstep.2 (start_cmd cfg.known_bad cfg.known_good)
    if sstep.1.returncode ≠ 0 then
      (.error (called_process_message sstep.1),
       [reset_cmd, start_cmd cfg.known_bad cfg.known_good], sstep.2)
    else
      let bstep := r sstep.2 (bad_cmd cfg.known_bad)
      if bstep.1.returncode ≠ 0 then
        (.error (called_process_message bstep.1),
         [reset_cmd, start_cmd cfg.known_bad cfg.known_good, bad_cmd cfg.known_bad], bstep.2)
      else
        match cfg.known_good with
        | some g =>
          let gstep := r bstep.2 (good_cmd g)
          if gstep.1.returncode ≠ 0 then
            (.error (called_process_message gstep.1),
             [reset_cmd, start_cmd cfg.known_bad cfg.known_good, bad_cmd cfg.known_bad,
              good_cmd g], gstep.2)
          else
            run_phase r gstep.2
              [reset_cmd, start_cmd cfg.known_bad cfg.known_good, bad_cmd cfg.known_bad,
               good_cmd g] cfg
        | none =>
          run_phase r bstep.2
            [reset_cmd, start_cmd cfg.known_bad cfg.known_good, bad_cmd cfg.known_bad] cfg

/-! ### Report generation and the CodeBreakAnalyzer plugin -/

/-- The `git show <commit> --stat --patch` command line of
`summarize_diff`. -/
def show_cmd (commit : String) : List String :=
  ["git", "show", commit, "--stat", "--patch"]

/-- The message of the `GitCommandError` raised by `summarize_diff` on a
nonzero exit code. -/
def diff_error_message (r : ProcResult) : String :=
  if py_strip r.stderr ≠ "" then py_strip r.stderr
  else if py_strip r.stdout ≠ "" then py_strip r.stdout
  else "Unable to summarize diff."

/-- The path `generate_report` writes (markdown format, the default):
`REPORT_DIR / f"diagnostic_{commit}.md"`, with the report directory passed
explicitly. -/
def report_path (dir commit : String) : String :=
  str_cat dir (str_cat "/diagnostic_" (str_cat commit ".md"))

/-- Models `DiagnosticEngine.generate_report` (default markdown format): it
first runs `summarize_diff`, whose `ensure_repository` check and `git show`
call can raise, and otherwise writes the report file and returns its path.
The written file contents are an effect outside this model. -/
def generate_report {σ : Type} (r : Runner σ) (s : σ) (repo_ok : Bool)
    (dir commit : String) : Except String String × List (List String) × σ :=
  if repo_ok = false then (.error "not a git repository", [], s)
  else
    let st := r s (show_cmd commit)
    if st.1.returncode ≠ 0 then (.error (diff_error_message st.1), [show_cmd commit], st.2)
    else (.ok (report_path dir commit), [show_cmd commit], st.2)

/-- The app context as the CodeBreakAnalyzer run closure sees it: whether
`hasattr(app, "show_popup")` holds with a callable value. -/
structure AppContext where
  has_show_popup : Bool

/-- The phrase the run closure looks for in the bisection summary. -/
def analyzer_phrase : String :=
  "identified as the first bad commit"

/-- The message formatted when no report was produced. -/
def analyzer_message (summary : String) : String :=
  str_cat "🚨 CodeBreakAnalyzer\n" summary

/-- The message formatted when a report was produced. -/
def analyzer_message_with_report (summary report : String) : String :=
  str_cat "🚨 CodeBreakAnalyzer\n" (str_cat summary (str_cat "\nReport: " report))

/-- The `show_popup` invocations the run closure performs: exactly one,
with the plugin title and the message, when the context exposes a callable
`show_popup`; none otherwise. -/
def popup_calls (app : AppContext) (message : String) : List (String × String) :=
  if app.has_show_popup then [("CodeBreakAnalyzer", message)] else []

/-- The default bisection configuration the plugin uses:
`find_breaking_commit()` with no arguments, so `known_bad = "HEAD"`, no
known good revision, and no test command. -/
def default_config (repo_ok pytest_on_path : Bool) : BisectConfig :=
  { repo_ok := repo_ok, known_good := none, known_bad := "HEAD",
    test_command := none, pytest_on_path := pytest_on_path }

/-- Models the `run` closure registered by
`git_helper/plugins/code_break_analyzer.py`: run bisection with default
bounds; when the summary contains the success phrase, take its leading
token as the commit and generate a report (whose failure propagates);
format the message with the report path when one was produced; notify the
app context through `show_popup` only when it exposes a callable one; and
return the message together with the popup invocations made. (When the
phrase is present the summary starts with a token, so the Python indexing
`summary.split()[0]` cannot fail.) -/
def code_break_run {σ : Type} (r : Runner σ) (s : σ) (repo_ok pytest_on_path : Bool)
    (report_dir : String) (app : AppContext) :
    Except String (String × List (String × String)) × List (List String) × σ :=
  match find_breaking_commit r s (default_config repo_ok pytest_on_path) with
  | (.error e, tr, s1) => (.error e, tr, s1)
  | (.ok summary, tr, s1) =>
    match (if py_contains summary analyzer_phrase then first_token summary else none) with
    | some c =>
      match generate_report r s1 repo_ok report_dir c with
      | (.error e, tr2, s2) => (.error e, tr ++ tr2, s2)
      | (.ok path, tr2, s2) =>
        let message := analyzer_message_with_report summary path
        (.ok (message, popup_calls app message), tr ++ tr2, s2)
    | none =>
      let message := analyzer_message summary
      (.ok (message, popup_calls app message), tr, s1)

/-! ### Specification-side definitions

These two definitions follow the words of the specification (for the
refinement comparison of claim C5); they are deliberately written from the
spec text, not from the code. -/

/-- Written from the spec: the culprit is the first whitespace-delimited
token of the first line of the combined output that contains the phrase
"is the first bad commit". -/
def spec_culprit (output : String) : Option String :=
  match ((py_splitlines output).filter
      (fun line => py_contains line "is the first bad commit")).head? with
  | some line => first_token line
  | none => none

/-- Written from the spec: the fallback takes the first token of the first
non-empty line of the one-line-per-commit visualization (a failed
visualization yields nothing). -/
def spec_fallback (r : ProcResult) : Option String :=
  if r.returncode ≠ 0 then none
  else
    match ((py_splitlines r.stdout).filter (fun line => !(py_tokens line).isEmpty)).head? with
    | some line => first_token line
    | none => none

/-! ### Helper lemmas -/

theorem list_contains_iff {a : String} {l : List String} :
    l.contains a = true ↔ a ∈ l := by
  simp [List.contains, List.elem_iff]

theorem mem_sorted_dedup {a : String} {l : List String} :
    a ∈ sorted_dedup l ↔ a ∈ l := by
  unfold sorted_dedup
  rw [(List.perm_insertionSort _ _).mem_iff, List.mem_dedup]

theorem mem_sort_states {G A : Type} {st : PluginState G A} {l : List (PluginState G A)} :
    st ∈ sort_states l ↔ st ∈ l :=
  (List.perm_insertionSort _ _).mem_iff

theorem find?_eq_head_filter {α : Type} (p : α → Bool) (l : List α) :
    l.find? p = (l.filter p).head? := by
  induction l with
  | nil => rfl
  | cons x xs ih =>
    by_cases h : p x = true
    · rw [List.find?_cons_of_pos _ h, List.filter_cons_of_pos h, List.head?_cons]
    · rw [List.find?_cons_of_neg _ h, List.filter_cons_of_neg h, ih]

theorem parse_first_bad_eq_spec (output : String) :
    parse_first_bad output = spec_culprit output := by
  unfold parse_first_bad spec_culprit
  rw [find?_eq_head_filter]

theorem findSome_first_token_eq (lines : List String) :
    lines.findSome? (fun line => first_token line) =
      (match (lines.filter (fun line => !(py_tokens line).isEmpty)).head? with
       | some line => first_token line
       | none => none) := by
  induction lines with
  | nil => rfl
  | cons x xs ih =>
    cases htok : py_tokens x with
    | nil =>
      have hft : first_token x = none := by simp [first_token, htok]
      have hpred : ¬ ((!(py_tokens x).isEmpty) = true) := by simp [htok]
      rw [List.findSome?_cons, hft,
        @List.filter_cons_of_neg String (fun line => !(py_tokens line).isEmpty) x xs hpred, ih]
    | cons t ts =>
      have hft : first_token x = some t := by simp [first_token, htok]
      have hpred : (!(py_tokens x).isEmpty) = true := by simp [htok]
      rw [List.findSome?_cons, hft,
        @List.filter_cons_of_pos String (fun line => !(py_tokens line).isEmpty) x xs hpred,
        List.head?_cons]
      exact hft.symm

theorem current_bisect_commit_eq_spec (r : ProcResult) :
    current_bisect_commit r = spec_fallback r := by
  unfold current_bisect_commit spec_fallback
  by_cases hrc : r.returncode ≠ 0
  · rw [if_pos hrc, if_pos hrc]
  · rw [if_neg hrc, if_neg hrc]
    exact findSome_first_token_eq (py_splitlines r.stdout)

theorem wrap_registered_enabled {G A : Type} {disabled : List String}
    {v : Option (Plugin G A)} {st : PluginState G A}
    (h : wrap_registered disabled v = some st) :
    st.enabled = !(disabled.contains st.plugin.name) := by
  cases v with
  | none => simp [wrap_registered] at h
  | some p =>
    simp only [wrap_registered, Option.some.injEq] at h
    subst h
    rfl

theorem register_entry_enabled {G A : Type} {disabled : List String}
    {e : Entry G A} {st : PluginState G A}
    (h : register_entry disabled e = .ok (some st)) :
    st.enabled = !(disabled.contains st.plugin.name) := by
  unfold register_entry at h
  split at h
  · simp at h
  · split at h
    · simp at h
    · simp at h
    · split at h
      · exact wrap_registered_enabled (Except.ok.inj h)
      · simp at h
      · split at h
        · exact wrap_registered_enabled (Except.ok.inj h)
        · simp at h

theorem collect_entries_enabled {G A : Type} {disabled : List String}
    {es : List (Entry G A)} {states : List (PluginState G A)}
    (h : collect_entries disabled es = .ok states) :
    ∀ st ∈ states, st.enabled = !(disabled.contains st.plugin.name) := by
  induction es generalizing states with
  | nil =>
    simp only [collect_entries] at h
    cases h
    intro st hst
    simp at hst
  | cons e es ih =>
    simp only [collect_entries] at h
    split at h
    · simp at h
    · exact ih h
    · rename_i s hreg
      split at h
      · simp at h
      · rename_i rest hrest
        cases h
        intro st hst
        rcases List.mem_cons.mp hst with h1 | h1
        · subst h1
          exact register_entry_enabled hreg
        · exact ih hrest st h1

theorem collect_paths_enabled {G A : Type} {disabled : List String}
    {ps : List (List (Entry G A))} {states : List (PluginState G A)}
    (h : collect_paths disabled ps = .ok states) :
    ∀ st ∈ states, st.enabled = !(disabled.contains st.plugin.name) := by
  induction ps generalizing states with
  | nil =>
    simp only [collect_paths] at h
    cases h
    intro st hst
    simp at hst
  | cons p ps ih =>
    simp only [collect_paths] at h
    split at h
    · simp at h
    · rename_i first hfirst
      split at h
      · simp at h
      · rename_i rest hrest
        cases h
        intro st hst
        rcases List.mem_append.mp hst with h1 | h1
        · exact collect_entries_enabled hfirst st h1
        · exact ih hrest st h1

theorem run_phase_fst {σ : Type} (r : Runner σ) (s : σ) (tr : List (List String))
    (cfg : BisectConfig) :
    (run_phase r s tr cfg).1 =
      .ok (match parse_first_bad
              (str_cat (r s (run_step_cmd cfg)).1.stdout (r s (run_step_cmd cfg)).1.stderr) with
           | some c => success_message c
           | none =>
             match current_bisect_commit (r (r s (run_step_cmd cfg)).2 visualize_cmd).1 with
             | some c => success_message c
             | none => inconclusive_message) := by
  simp only [run_phase]
  cases hp : parse_first_bad
      (str_cat (r s (run_step_cmd cfg)).1.stdout (r s (run_step_cmd cfg)).1.stderr) with
  | some c => simp [hp]
  | none =>
    cases hc : current_bisect_commit (r (r s (run_step_cmd cfg)).2 visualize_cmd).1 with
    | some c => simp [hp, hc]
    | none => simp [hp, hc]

theorem run_phase_isOk {σ : Type} (r : Runner σ) (s : σ) (tr : List (List String))
    (cfg : BisectConfig) : (run_phase r s tr cfg).1.isOk = true := by
  rw [run_phase_fst]
  cases hp : parse_first_bad
      (str_cat (r s (run_step_cmd cfg)).1.stdout (r s (run_step_cmd cfg)).1.stderr)
  · cases hc : current_bisect_commit (r (r s (run_step_cmd cfg)).2 visualize_cmd).1 <;> rfl
  · rfl

theorem run_phase_trace {σ : Type} (r : Runner σ) (s : σ) (tr : List (List String))
    (cfg : BisectConfig) :
    (run_phase r s tr cfg).2.1 = tr ++ [run_step_cmd cfg, reset_cmd] ∨
    (run_phase r s tr cfg).2.1 = tr ++ [run_step_cmd cfg, visualize_cmd, reset_cmd] := by
  simp only [run_phase]
  cases hp : parse_first_bad
      (str_cat (r s (run_step_cmd cfg)).1.stdout (r s (run_step_cmd cfg)).1.stderr) with
  | some c => simp [hp]
  | none =>
    cases hc : current_bisect_commit (r (r s (run_step_cmd cfg)).2 visualize_cmd).1 with
    | some c => simp [hp, hc]
    | none => simp [hp, hc]

theorem run_phase_trace_getLast {σ : Type} (r : Runner σ) (s : σ)
    (tr : List (List String)) (cfg : BisectConfig) :
    (run_phase r s tr cfg).2.1.getLast? = some reset_cmd := by
  rcases run_phase_trace r s tr cfg with h | h <;> rw [h]
  · have : tr ++ [run_step_cmd cfg, reset_cmd] = (tr ++ [run_step_cmd cfg]) ++ [reset_cmd] := by
      simp
    rw [this, List.getLast?_concat]
  · have : tr ++ [run_step_cmd cfg, visualize_cmd, reset_cmd]
        = (tr ++ [run_step_cmd cfg, visualize_cmd]) ++ [reset_cmd] := by
      simp
    rw [this, List.getLast?_concat]

theorem discover_cached {G A : Type} {pm : PluginManager G A}
    {states : List (PluginState G A)} (hl : pm.loaded = some states) :
    discover pm false = .ok (states, pm) := by
  unfold discover
  rw [hl]

theorem discover_loaded_of_ok {G A : Type} {pm : PluginManager G A} {force : Bool}
    {states : List (PluginState G A)} {pm' : PluginManager G A}
    (h : discover pm force = .ok (states, pm')) : pm'.loaded = some states := by
  unfold discover at h
  cases hl : pm.loaded with
  | some cached =>
    cases force with
    | false =>
      rw [hl] at h
      have := Except.ok.inj h
      rw [Prod.mk.injEq] at this
      rw [← this.2, hl, this.1]
    | true =>
      rw [hl] at h
      cases hc : collect_paths pm.settings.disabled_plugins pm.search_paths with
      | error e => rw [hc] at h; exact absurd h (by simp)
      | ok sts =>
        rw [hc] at h
        have := Except.ok.inj h
        rw [Prod.mk.injEq] at this
        rw [← this.2, this.1]
  | none =>
    rw [hl] at h
    cases hc : collect_paths pm.settings.disabled_plugins pm.search_paths with
    | error e => rw [hc] at h; exact absurd h (by simp)
    | ok sts =>
      rw [hc] at h
      have := Except.ok.inj h
      rw [Prod.mk.injEq] at this
      rw [← this.2, this.1]

theorem discover_true_ok {G A : Type} {pm : PluginManager G A}
    {states : List (PluginState G A)} {pm' : PluginManager G A}
    (h : discover pm true = .ok (states, pm')) :
    ∃ sts, collect_paths pm.settings.disabled_plugins pm.search_paths = .ok sts ∧
      states = sort_states sts ∧
      pm' = { pm with loaded := some (sort_states sts) } := by
  unfold discover at h
  cases hl : pm.loaded with
  | some cached =>
    rw [hl] at h
    cases hc : collect_paths pm.settings.disabled_plugins pm.search_paths with
    | error e => rw [hc] at h; exact absurd h (by simp)
    | ok sts =>
      rw [hc] at h
      have := Except.ok.inj h
      rw [Prod.mk.injEq] at this
      exact ⟨sts, rfl, this.1.symm, this.2.symm⟩
  | none =>
    rw [hl] at h
    cases hc : collect_paths pm.settings.disabled_plugins pm.search_paths with
    | error e => rw [hc] at h; exact absurd h (by simp)
    | ok sts =>
      rw [hc] at h
      have := Except.ok.inj h
      rw [Prod.mk.injEq] at this
      exact ⟨sts, rfl, this.1.symm, this.2.symm⟩

theorem sorted_sort_states {G A : Type} (l : List (PluginState G A)) :
    List.Sorted (fun a b => str_le (state_key a) (state_key b) = true) (sort_states l) := by
  haveI : IsTotal (PluginState G A) (fun a b => str_le (state_key a) (state_key b) = true) :=
    ⟨fun a b => str_le_total (state_key a) (state_key b)⟩
  haveI : IsTrans (PluginState G A) (fun a b => str_le (state_key a) (state_key b) = true) :=
    ⟨fun _ _ _ hab hbc => str_le_trans hab hbc⟩
  exact List.sorted_insertionSort _ l

/-! ### Claim C5 -/

/-- C5: for every bisect-run output, the engine takes the culprit to be the
first whitespace-delimited token of the first line of combined
stdout+stderr containing the phrase "is the first bad commit"; when no such
line exists it falls back to the first token of the first non-empty line of
the one-line-per-commit visualization; the returned string is exactly the
success sentence when a culprit was found and exactly the inconclusive
sentence otherwise, and the inconclusive case returns normally rather than
raising. (`run_phase` is the part of `find_breaking_commit` every
invocation enters once the setup steps have succeeded; `spec_culprit` and
`spec_fallback` are written from the specification's words.) -/
theorem c5_run_output_parsing {σ : Type} (r : Runner σ) (s : σ) (tr : List (List String))
    (cfg : BisectConfig) :
    (run_phase r s tr cfg).1 =
      .ok (match spec_culprit
              (str_cat (r s (run_step_cmd cfg)).1.stdout (r s (run_step_cmd cfg)).1.stderr) with
           | some c => str_cat c " identified as the first bad commit."
           | none =>
             match spec_fallback (r (r s (run_step_cmd cfg)).2 visualize_cmd).1 with
             | some c => str_cat c " identified as the first bad commit."
             | none => "Unable to determine the first bad commit. Review bisect output manually.") := by
  rw [run_phase_fst, parse_first_bad_eq_spec, current_bisect_commit_eq_spec]
  cases hp : spec_culprit
      (str_cat (r s (run_step_cmd cfg)).1.stdout (r s (run_step_cmd cfg)).1.stderr) with
  | some c => rfl
  | none =>
    cases hc : spec_fallback (r (r s (run_step_cmd cfg)).2 visualize_cmd).1 with
    | some c => rfl
    | none => rfl

/-! ### Claim C7 -/

/-- C7: calling `discover(force=false)` twice in a row with no enable or
disable in between returns the same snapshot twice, with identical content
and ordering: the first call leaves its result in the cache, and a second
non-forced call returns the cache unchanged. -/
theorem c7_discover_idempotent {G A : Type} (pm : PluginManager G A)
    (states : List (PluginState G A)) (pm' : PluginManager G A)
    (h : discover pm false = .ok (states, pm')) :
    discover pm' false = .ok (states, pm') :=
  discover_cached (discover_loaded_of_ok h)

def c7w_plugin : Plugin Unit Unit :=
  { name := "Alpha", description := "demo plugin", run := fun _ _ => "ran" }

def c7w_entry : Entry Unit Unit :=
  { name := "mod_alpha", load := .hook (.returns (some c7w_plugin)) (.returns none) }

def c7w_pm : PluginManager Unit Unit :=
  { git := (), settings := ⟨[]⟩, search_paths := [[c7w_entry]], loaded := none }

/-- Witness for C7: a concrete one-plugin registry; the first non-forced
`discover` computes the snapshot and the second returns it unchanged. -/
theorem c7_discover_idempotent_witness :
    discover { c7w_pm with loaded := some [⟨c7w_plugin, true⟩] } false =
      .ok ([⟨c7w_plugin, true⟩], { c7w_pm with loaded := some [⟨c7w_plugin, true⟩] }) :=
  c7_discover_idempotent c7w_pm [⟨c7w_plugin, true⟩]
    { c7w_pm with loaded := some [⟨c7w_plugin, true⟩] } rfl

/-! ### Claim C8 -/

/-- C8: every snapshot `discover` returns is sorted by plugin name compared
case-insensitively (the key is the lowered name, compared by code point).
The cache hypothesis says that whatever snapshot is already cached was
itself sorted; the cache starts empty at construction and is only ever
filled by `discover` with a sorted snapshot, so it holds for every manager
the API can produce. -/
theorem c8_snapshot_sorted {G A : Type} (pm : PluginManager G A) (force : Bool)
    (states : List (PluginState G A)) (pm' : PluginManager G A)
    (hcache : ∀ c, pm.loaded = some c →
      List.Sorted (fun a b => str_le (state_key a) (state_key b) = true) c)
    (h : discover pm force = .ok (states, pm')) :
    List.Sorted (fun a b => str_le (state_key a) (state_key b) = true) states := by
  unfold discover at h
  cases hl : pm.loaded with
  | some cached =>
    cases force with
    | false =>
      rw [hl] at h
      have := Except.ok.inj h
      rw [Prod.mk.injEq] at this
      rw [← this.1]
      exact hcache cached hl
    | true =>
      rw [hl] at h
      cases hc : collect_paths pm.settings.disabled_plugins pm.search_paths with
      | error e => rw [hc] at h; exact absurd h (by simp)
      | ok sts =>
        rw [hc] at h
        have := Except.ok.inj h
        rw [Prod.mk.injEq] at this
        rw [← this.1]
        exact sorted_sort_states sts
  | none =>
    rw [hl] at h
    cases hc : collect_paths pm.settings.disabled_plugins pm.search_paths with
    | error e => rw [hc] at h; exact absurd h (by simp)
    | ok sts =>
      rw [hc] at h
      have := Except.ok.inj h
      rw [Prod.mk.injEq] at this
      rw [← this.1]
      exact sorted_sort_states sts

def c8w_plugin_upper : Plugin Unit Unit :=
  { name := "BETA", description := "upper-case name", run := fun _ _ => "b" }

def c8w_plugin_lower : Plugin Unit Unit :=
  { name := "alpha", description := "lower-case name", run := fun _ _ => "a" }

def c8w_pm : PluginManager Unit Unit :=
  { git := (), settings := ⟨[]⟩,
    search_paths := [[⟨"mod_b", .hook (.returns (some c8w_plugin_upper)) (.returns none)⟩,
                      ⟨"mod_a", .hook (.returns (some c8w_plugin_lower)) (.returns none)⟩]],
    loaded := none }

/-- Witness for C8: a registry registering "BETA" before "alpha"; the
snapshot comes back sorted case-insensitively ("alpha" before "BETA",
although code-point order would put "BETA" first). -/
theorem c8_snapshot_sorted_witness :
    List.Sorted (fun a b => str_le (state_key a) (state_key b) = true)
      [⟨c8w_plugin_lower, true⟩, ⟨c8w_plugin_upper, true⟩] :=
  c8_snapshot_sorted c8w_pm true [⟨c8w_plugin_lower, true⟩, ⟨c8w_plugin_upper, true⟩] _
    (fun _ hc => nomatch hc) rfl

/-! ### Claim C4 -/

/-- C4: invoking a plugin by name fails with the single `PluginNotFound`
error kind whenever no enabled plugin in the snapshot bears that name —
covering both the unknown name and the existing-but-disabled plugin, which
produce the very same error value — and when an enabled plugin with that
name exists, `run_plugin` returns that plugin's run result verbatim (the
first matching enabled state, which is the unique one when names are
unique). -/
theorem c4_invoke_contract {G A : Type} (pm : PluginManager G A) (name : String) (app : A)
    (states : List (PluginState G A)) (pm' : PluginManager G A)
    (h : discover pm false = .ok (states, pm')) :
    ((∀ st ∈ states, ¬(st.plugin.name = name ∧ st.enabled = true)) →
      run_plugin pm name app = .error (.pluginNotFound name)) ∧
    (∀ st, states.find? (fun st => st.plugin.name == name && st.enabled) = some st →
      run_plugin pm name app = .ok (st.plugin.run pm'.git app, pm')) := by
  constructor
  · intro hnone
    have hfind : states.find? (fun st => st.plugin.name == name && st.enabled) = none := by
      rw [List.find?_eq_none]
      intro st hst
      simp only [Bool.and_eq_true, beq_iff_eq, not_and]
      intro h1 h2
      exact hnone st hst ⟨h1, h2⟩
    unfold run_plugin
    simp only [h, hfind]
  · intro st hfind
    unfold run_plugin
    simp only [h, hfind]

def c4w_plugin : Plugin Unit Unit :=
  { name := "Alpha", description := "demo plugin", run := fun _ _ => "ran" }

def c4w_ghost : Plugin Unit Unit :=
  { name := "Ghost", description := "disabled plugin", run := fun _ _ => "never" }

def c4w_pm : PluginManager Unit Unit :=
  { git := (), settings := ⟨["Ghost"]⟩,
    search_paths := [[⟨"mod_alpha", .hook (.returns (some c4w_plugin)) (.returns none)⟩,
                      ⟨"mod_ghost", .hook (.returns (some c4w_ghost)) (.returns none)⟩]],
    loaded := none }

/-- Witness for C4: invoking the enabled "Alpha" returns its run result
verbatim; invoking the disabled "Ghost" and the unknown "Missing" both fail
with the same `PluginNotFound` error kind. -/
theorem c4_invoke_contract_witness :
    (run_plugin c4w_pm "Alpha" ()).map (fun p => p.1) = .ok "ran" ∧
    run_plugin c4w_pm "Ghost" () = .error (.pluginNotFound "Ghost") ∧
    run_plugin c4w_pm "Missing" () = .error (.pluginNotFound "Missing") := by
  refine ⟨?_, ?_, ?_⟩
  · rw [(c4_invoke_contract c4w_pm "Alpha" () [⟨c4w_plugin, true⟩, ⟨c4w_ghost, false⟩] _ rfl).2
      ⟨c4w_plugin, true⟩ rfl]
    rfl
  · exact (c4_invoke_contract c4w_pm "Ghost" () [⟨c4w_plugin, true⟩, ⟨c4w_ghost, false⟩] _ rfl).1
      (by
        intro st hst
        rcases List.mem_cons.mp hst with h1 | h1
        · subst h1; rintro ⟨hn, _⟩; exact absurd hn (by decide)
        · rcases List.mem_singleton.mp h1 with rfl
          rintro ⟨_, he⟩; exact absurd he (by decide))
  · exact (c4_invoke_contract c4w_pm "Missing" () [⟨c4w_plugin, true⟩, ⟨c4w_ghost, false⟩] _ rfl).1
      (by
        intro st hst
        rcases List.mem_cons.mp hst with h1 | h1
        · subst h1; rintro ⟨hn, _⟩; exact absurd hn (by decide)
        · rcases List.mem_singleton.mp h1 with rfl
          rintro ⟨hn, _⟩; exact absurd hn (by decide))

/-! ### Claim C1 -/

theorem start_cmd_ne_reset (bad : String) (good : Option String) :
    start_cmd bad good ≠ reset_cmd := by
  cases good <;> simp [start_cmd, reset_cmd]

theorem bad_cmd_ne_reset (bad : String) : bad_cmd bad ≠ reset_cmd := by
  simp [bad_cmd, reset_cmd]

theorem good_cmd_ne_reset (good : String) : good_cmd good ≠ reset_cmd := by
  simp [good_cmd, reset_cmd]

/-- C1 as amended: a reset is always attempted first (before the start);
on every run-phase exit — culprit found or inconclusive — a final reset is
the last command executed; but when the start, mark-bad, or mark-good step
fails, `GitCommandError` propagates with no reset after the initial one —
in particular no reset after the failure, so the working tree can be left
mid-bisection (for instance when `bisect start` succeeded and `bisect bad`
failed). -/
theorem c1_reset_discipline {σ : Type} (r : Runner σ) (s : σ) (cfg : BisectConfig)
    (h : cfg.repo_ok = true) :
    ((find_breaking_commit r s cfg).2.1.head? = some reset_cmd) ∧
    ((find_breaking_commit r s cfg).1.isOk = true →
      (find_breaking_commit r s cfg).2.1.getLast? = some reset_cmd) ∧
    ((find_breaking_commit r s cfg).1.isOk = false →
      ∀ c ∈ (find_breaking_commit r s cfg).2.1.tail, c ≠ reset_cmd) := by
  simp only [find_breaking_commit]
  rw [if_neg (by simp [h] : ¬ (cfg.repo_ok = false))]
  by_cases hs : (r (r s reset_cmd).2 (start_cmd cfg.known_bad cfg.known_good)).1.returncode ≠ 0
  · rw [if_pos hs]
    refine ⟨rfl, fun hok => absurd hok (by simp [Except.isOk, Except.toBool]), fun _ c hc => ?_⟩
    simp only [List.tail_cons] at hc
    rcases List.mem_singleton.mp hc with rfl
    exact start_cmd_ne_reset cfg.known_bad cfg.known_good
  · rw [if_neg hs]
    by_cases hb : (r (r (r s reset_cmd).2 (start_cmd cfg.known_bad cfg.known_good)).2
        (bad_cmd cfg.known_bad)).1.returncode ≠ 0
    · rw [if_pos hb]
      refine ⟨rfl, fun hok => absurd hok (by simp [Except.isOk, Except.toBool]), fun _ c hc => ?_⟩
      simp only [List.tail_cons] at hc
      rcases List.mem_cons.mp hc with rfl | hc
      · exact start_cmd_ne_reset cfg.known_bad cfg.known_good
      · rcases List.mem_singleton.mp hc with rfl
        exact bad_cmd_ne_reset cfg.known_bad
    · rw [if_neg hb]
      cases hg : cfg.known_good with
      | some g =>
        dsimp only
        by_cases hgc : (r (r (r (r s reset_cmd).2 (start_cmd cfg.known_bad (some g))).2
            (bad_cmd cfg.known_bad)).2 (good_cmd g)).1.returncode ≠ 0
        · rw [if_pos hgc]
          refine ⟨rfl, fun hok => absurd hok (by simp [Except.isOk, Except.toBool]), fun _ c hc => ?_⟩
          simp only [List.tail_cons] at hc
          rcases List.mem_cons.mp hc with rfl | hc
          · exact start_cmd_ne_reset cfg.known_bad (some g)
          · rcases List.mem_cons.mp hc with rfl | hc
            · exact bad_cmd_ne_reset cfg.known_bad
            · rcases List.mem_singleton.mp hc with rfl
              exact good_cmd_ne_reset g
        · rw [if_neg hgc]
          refine ⟨?_, fun _ => run_phase_trace_getLast r _ _ cfg, fun hok => ?_⟩
          · rcases run_phase_trace r
                (r (r (r (r s reset_cmd).2 (start_cmd cfg.known_bad (some g))).2
                  (bad_cmd cfg.known_bad)).2 (good_cmd g)).2
                [reset_cmd, start_cmd cfg.known_bad (some g), bad_cmd cfg.known_bad, good_cmd g]
                cfg with ht | ht <;> rw [ht] <;> rfl
          · rw [run_phase_isOk] at hok
            simp at hok
      | none =>
        dsimp only
        refine ⟨?_, fun _ => run_phase_trace_getLast r _ _ cfg, fun hok => ?_⟩
        · rcases run_phase_trace r
              (r (r (r s reset_cmd).2 (start_cmd cfg.known_bad none)).2 (bad_cmd cfg.known_bad)).2
              [reset_cmd, start_cmd cfg.known_bad none, bad_cmd cfg.known_bad]
              cfg with ht | ht <;> rw [ht] <;> rfl
        · rw [run_phase_isOk] at hok
          simp at hok

/-- A process runner on which the `git bisect start` command fails (the
good reference does not exist) and every other command succeeds. -/
def c1x_runner : Runner Unit := fun _ cmd =>
  (if cmd = start_cmd "HEAD" (some "v1") then
     { returncode := 1, stdout := "", stderr := "fatal: invalid reference: v1" }
   else { returncode := 0, stdout := "", stderr := "" }, ())

def c1x_cfg : BisectConfig :=
  { repo_ok := true, known_good := some "v1", known_bad := "HEAD",
    test_command := none, pytest_on_path := true }

/-- Counterexample to C1 as stated: when the start step fails, the engine
raises after executing exactly one `bisect reset` — the one issued before
the start — so no reset is attempted after the failure and the trace does
not end in a reset, refuting "a reset is attempted both before and after
the failure" and "a bisect reset is performed before control returns" for
the setup-failure exit path. -/
theorem c1_counterexample :
    (find_breaking_commit c1x_runner () c1x_cfg).1 = .error "fatal: invalid reference: v1" ∧
    (find_breaking_commit c1x_runner () c1x_cfg).2.1 =
      [reset_cmd, start_cmd "HEAD" (some "v1")] ∧
    ((find_breaking_commit c1x_runner () c1x_cfg).2.1.filter (fun c => c == reset_cmd)).length
      = 1 ∧
    (find_breaking_commit c1x_runner () c1x_cfg).2.1.getLast? ≠ some reset_cmd := by
  refine ⟨rfl, rfl, rfl, ?_⟩
  decide

/-- A process runner on which every command succeeds and produces no
output, driving `find_breaking_commit` to its inconclusive exit. -/
def c1w_runner : Runner Unit := fun _ _ =>
  ({ returncode := 0, stdout := "", stderr := "" }, ())

def c1w_cfg : BisectConfig :=
  { repo_ok := true, known_good := none, known_bad := "HEAD",
    test_command := none, pytest_on_path := true }

/-- Witness for the amended C1: on a run that reaches the run phase, the
first command is a reset and the last command is the final reset. -/
theorem c1_reset_discipline_witness :
    (find_breaking_commit c1w_runner () c1w_cfg).2.1.head? = some reset_cmd ∧
    (find_breaking_commit c1w_runner () c1w_cfg).1.isOk = true ∧
    (find_breaking_commit c1w_runner () c1w_cfg).2.1.getLast? = some reset_cmd :=
  have th := c1_reset_discipline c1w_runner () c1w_cfg rfl
  ⟨th.1, rfl, th.2.1 rfl⟩

/-! ### Claim C2 -/

def c2x_good : Entry Unit Unit :=
  { name := "mod_good",
    load := .hook (.returns (some ⟨"Alpha", "a valid plugin", fun _ _ => "alpha ran"⟩))
      (.returns none) }

/-- A candidate whose `register` hook takes two required parameters: the
zero-argument call raises `TypeError`, and so does the one-argument
retry. -/
def c2x_two_arg : Entry Unit Unit :=
  { name := "mod_two_arg", load := .hook (.raises true) (.raises true) }

def c2x_pm : PluginManager Unit Unit :=
  { git := (), settings := ⟨[]⟩, search_paths := [[c2x_good, c2x_two_arg]], loaded := none }

def c2x_pm_good : PluginManager Unit Unit :=
  { git := (), settings := ⟨[]⟩, search_paths := [[c2x_good]], loaded := none }

/-- C2, evaluated at the failing input: a search location holding one valid
plugin (N = 1) and one broken candidate whose registration hook raises
`TypeError` on both the zero-argument call and the one-argument retry. The
retry runs inside the `except TypeError` handler, so its exception escapes
the `except Exception` clause and `discover` propagates it: the run aborts
and returns no snapshot at all instead of the one valid entry. Without the
broken candidate the same registry yields exactly the one valid entry. -/
theorem c2_broken_candidate_aborts :
    discover c2x_pm true = .error .typeError ∧
    (discover c2x_pm_good true).map (fun p => p.1.length) = .ok 1 :=
  ⟨rfl, rfl⟩

/-! ### Claim C3 -/

def c3x_states : List (PluginState Unit Unit) :=
  [⟨⟨"dup", "first module", fun _ _ => "first"⟩, true⟩,
   ⟨⟨"dup", "second module", fun _ _ => "second"⟩, true⟩]

def c3x_pm : PluginManager Unit Unit :=
  { git := (), settings := ⟨[]⟩,
    search_paths := [[⟨"mod_a", .hook (.returns (some ⟨"dup", "first module", fun _ _ => "first"⟩))
                        (.returns none)⟩,
                      ⟨"mod_b", .hook (.returns (some ⟨"dup", "second module", fun _ _ => "second"⟩))
                        (.returns none)⟩]],
    loaded := none }

/-- Counterexample to C3 as stated: two discovered modules registering the
same name "dup" produce a snapshot with two entries of that name — names
are not unique within a snapshot and no deduplication happens — and
invoking "dup" dispatches to the first matching entry (the earlier module
in iteration order), not the later one, refuting last-wins. -/
theorem c3_counterexample :
    (discover c3x_pm true).map (fun p => p.1.map (fun st => st.plugin.name)) =
      .ok ["dup", "dup"] ∧
    (run_plugin c3x_pm "dup" ()).map (fun p => p.1) = .ok "first" :=
  ⟨rfl, rfl⟩

/-- C3 as amended: `discover` does not deduplicate names. Every successful
registration contributes its own `PluginState`, so the multiset of names in
a snapshot equals the multiset of names of the successful registrations:
when two discovered modules register the same name, both entries appear in
the snapshot. -/
theorem c3_names_not_deduplicated {G A : Type} (pm : PluginManager G A)
    (states : List (PluginState G A))
    (h : collect_paths pm.settings.disabled_plugins pm.search_paths = .ok states) :
    discover pm true = .ok (sort_states states, { pm with loaded := some (sort_states states) }) ∧
    ((sort_states states).map (fun st => st.plugin.name)).Perm
      (states.map (fun st => st.plugin.name)) := by
  constructor
  · unfold discover
    cases hl : pm.loaded <;> simp only [h]
  · exact (List.perm_insertionSort _ states).map _

/-- Witness for the amended C3: the duplicate-name registry, where both
same-named entries survive into the snapshot. -/
theorem c3_names_not_deduplicated_witness :
    discover c3x_pm true =
      .ok (sort_states c3x_states, { c3x_pm with loaded := some (sort_states c3x_states) }) ∧
    ((sort_states c3x_states).map (fun st => st.plugin.name)).Perm
      (c3x_states.map (fun st => st.plugin.name)) :=
  c3_names_not_deduplicated c3x_pm c3x_states rfl

/-! ### Claim C6 -/

theorem discover_fst_congr {G A : Type} (pm1 pm2 : PluginManager G A) (force : Bool)
    (hs : pm1.settings = pm2.settings) (hp : pm1.search_paths = pm2.search_paths)
    (hl : pm1.loaded = pm2.loaded) :
    (discover pm1 force).map (fun p => p.1) = (discover pm2 force).map (fun p => p.1) := by
  unfold discover
  rw [hs, hp, hl]
  cases h2 : pm2.loaded with
  | some cached =>
    cases force with
    | false => rfl
    | true =>
      cases hc : collect_paths pm2.settings.disabled_plugins pm2.search_paths with
      | error e => rfl
      | ok sts => rfl
  | none =>
    cases hc : collect_paths pm2.settings.disabled_plugins pm2.search_paths with
    | error e => rfl
    | ok sts => rfl

theorem enable_plugin_mem {sd : SettingsData} {store : Store} {name : String}
    (h : name ∈ sd.disabled_plugins) :
    enable_plugin sd store name
      = (⟨sorted_dedup (sd.disabled_plugins.filter (fun x => !(x == name)))⟩,
         .dict (some (sorted_dedup (sd.disabled_plugins.filter (fun x => !(x == name)))))) := by
  unfold enable_plugin
  rw [if_pos (list_contains_iff.mpr h)]

theorem not_mem_filtered_out (l : List String) (n : String) :
    n ∉ sorted_dedup (l.filter (fun x => !(x == n))) := by
  intro hmem
  rw [mem_sorted_dedup] at hmem
  have := (List.mem_filter.mp hmem).2
  simp at this

/-- C6: disabling a plugin invalidates the cache and a forced re-discovery
yields every state with that name disabled; re-enabling invalidates the
cache again and flips those states back to enabled; the disabled-set is
persisted by `save`, so a fresh manager constructed over the stored
settings reads back the same settings and discovers the same snapshot. -/
theorem c6_enable_disable_persistence {G A : Type} (pm : PluginManager G A) (store : Store)
    (n : String) :
    ((pm_disable pm store n).1.loaded = none) ∧
    (∀ states pm1, discover (pm_disable pm store n).1 true = .ok (states, pm1) →
      ∀ st ∈ states, st.plugin.name = n → st.enabled = false) ∧
    ((pm_enable (pm_disable pm store n).1 (pm_disable pm store n).2 n).1.loaded = none) ∧
    (∀ states pm1,
      discover (pm_enable (pm_disable pm store n).1 (pm_disable pm store n).2 n).1 true
        = .ok (states, pm1) →
      ∀ st ∈ states, st.plugin.name = n → st.enabled = true) ∧
    ((settings_reload (pm_disable pm store n).2).1 = (pm_disable pm store n).1.settings) ∧
    (∀ git2 : G,
      (mk_manager git2 pm.search_paths (pm_disable pm store n).2).1.settings
        = (pm_disable pm store n).1.settings ∧
      (discover (mk_manager git2 pm.search_paths (pm_disable pm store n).2).1 true).map
          (fun p => p.1)
        = (discover (pm_disable pm store n).1 true).map (fun p => p.1)) := by
  have hmem_n : n ∈ (pm_disable pm store n).1.settings.disabled_plugins :=
    mem_sorted_dedup.mpr (List.mem_cons_self n pm.settings.disabled_plugins)
  refine ⟨rfl, ?_, rfl, ?_, rfl, fun git2 => ⟨rfl, ?_⟩⟩
  · intro states pm1 hdisc st hst hname
    obtain ⟨sts, hc, hsteq, _⟩ := discover_true_ok hdisc
    subst hsteq
    have hen := collect_paths_enabled hc st (mem_sort_states.mp hst)
    rw [hen, hname, list_contains_iff.mpr hmem_n]
    rfl
  · intro states pm1 hdisc st hst hname
    obtain ⟨sts, hc, hsteq, _⟩ := discover_true_ok hdisc
    subst hsteq
    have hen := collect_paths_enabled hc st (mem_sort_states.mp hst)
    have hed : (pm_enable (pm_disable pm store n).1 (pm_disable pm store n).2 n).1.settings
        = ⟨sorted_dedup
            ((pm_disable pm store n).1.settings.disabled_plugins.filter (fun x => !(x == n)))⟩ := by
      show (enable_plugin (pm_disable pm store n).1.settings (pm_disable pm store n).2 n).1 = _
      rw [enable_plugin_mem hmem_n]
    rw [hen, hname, hed]
    have hnm : n ∉ sorted_dedup
        ((pm_disable pm store n).1.settings.disabled_plugins.filter (fun x => !(x == n))) :=
      not_mem_filtered_out _ n
    have : (sorted_dedup
        ((pm_disable pm store n).1.settings.disabled_plugins.filter (fun x => !(x == n)))).contains n
        = false :=
      Bool.eq_false_iff.mpr (fun hcc => hnm (list_contains_iff.mp hcc))
    rw [this]
    rfl
  · exact discover_fst_congr _ _ true rfl rfl rfl

def c6w_plugin : Plugin Unit Unit :=
  { name := "Alpha", description := "demo plugin", run := fun _ _ => "ran" }

def c6w_pm : PluginManager Unit Unit :=
  { git := (), settings := ⟨[]⟩,
    search_paths := [[⟨"mod_alpha", .hook (.returns (some c6w_plugin)) (.returns none)⟩]],
    loaded := none }

def c6w_store : Store := .dict (some [])

/-- Witness for C6: a concrete registry with one plugin "Alpha"; disabling
it caches nothing and re-discovery yields it disabled, re-enabling flips it
back, the reloaded store reproduces the settings, and a fresh manager over
the stored settings discovers the same snapshot. -/
theorem c6_enable_disable_persistence_witness :
    (pm_disable c6w_pm c6w_store "Alpha").1.loaded = none ∧
    (⟨c6w_plugin, false⟩ : PluginState Unit Unit).enabled = false ∧
    (⟨c6w_plugin, true⟩ : PluginState Unit Unit).enabled = true ∧
    (settings_reload (pm_disable c6w_pm c6w_store "Alpha").2).1
      = (pm_disable c6w_pm c6w_store "Alpha").1.settings ∧
    (discover (mk_manager () c6w_pm.search_paths (pm_disable c6w_pm c6w_store "Alpha").2).1
        true).map (fun p => p.1)
      = (discover (pm_disable c6w_pm c6w_store "Alpha").1 true).map (fun p => p.1) := by
  have th := c6_enable_disable_persistence c6w_pm c6w_store "Alpha"
  refine ⟨th.1, ?_, ?_, th.2.2.2.2.1, (th.2.2.2.2.2 ()).2⟩
  · exact th.2.1 [⟨c6w_plugin, false⟩] _ rfl ⟨c6w_plugin, false⟩
      (List.mem_singleton.mpr rfl) rfl
  · exact th.2.2.2.1 [⟨c6w_plugin, true⟩] _ rfl ⟨c6w_plugin, true⟩
      (List.mem_singleton.mpr rfl) rfl

/-! ### Claim C9 -/

/-- C9: the CodeBreakAnalyzer run closure invokes bisection with default
bounds; when the bisection summary lacks the success phrase it returns the
plain formatted message, and when the summary contains the phrase it takes
the leading token as the commit, generates a report, and returns the
message carrying the report location; in both cases it returns normally for
every app context, calling `show_popup` exactly once when the context
exposes a callable one and not at all otherwise. -/
theorem c9_analyzer_behaviour {σ : Type} (r : Runner σ) (s : σ) (pytest : Bool)
    (dir : String) (app : AppContext) (summary : String) (tr : List (List String)) (s1 : σ)
    (h : find_breaking_commit r s (default_config true pytest) = (.ok summary, tr, s1)) :
    (py_contains summary analyzer_phrase = false →
      code_break_run r s true pytest dir app =
        (.ok (analyzer_message summary, popup_calls app (analyzer_message summary)), tr, s1)) ∧
    (∀ c, first_token summary = some c →
      py_contains summary analyzer_phrase = true →
      (r s1 (show_cmd c)).1.returncode = 0 →
      code_break_run r s true pytest dir app =
        (.ok (analyzer_message_with_report summary (report_path dir c),
              popup_calls app (analyzer_message_with_report summary (report_path dir c))),
         tr ++ [show_cmd c], (r s1 (show_cmd c)).2)) ∧
    (app.has_show_popup = false → popup_calls app (analyzer_message summary) = []) ∧
    (app.has_show_popup = true →
      popup_calls app (analyzer_message summary)
        = [("CodeBreakAnalyzer", analyzer_message summary)]) := by
  refine ⟨?_, ?_, ?_, ?_⟩
  · intro hphrase
    simp [code_break_run, h, hphrase]
  · intro c hft hphrase hrc
    simp [code_break_run, generate_report, h, hphrase, hft, hrc]
  · intro hp
    simp [popup_calls, hp]
  · intro hp
    simp [popup_calls, hp]

/-- A process runner on which the bisect-run step reports a first bad
commit and every other command (including `git show`) succeeds. -/
def c9w_runner : Runner Unit := fun _ cmd =>
  (if cmd = ["git", "bisect", "run", "pytest"] then
     { returncode := 1, stdout := "abc123 is the first bad commit\n", stderr := "" }
   else { returncode := 0, stdout := "", stderr := "" }, ())

/-- Witness for C9: with a popup-capable context the analyzer returns the
message with the report location and performs one popup call; with a
context lacking the capability it returns the same message with no popup
call and no failure. -/
theorem c9_analyzer_behaviour_witness :
    code_break_run c9w_runner () true true "reports" ⟨true⟩ =
      (.ok (analyzer_message_with_report "abc123 identified as the first bad commit."
              (report_path "reports" "abc123"),
            [("CodeBreakAnalyzer",
              analyzer_message_with_report "abc123 identified as the first bad commit."
                (report_path "reports" "abc123"))]),
       [reset_cmd, start_cmd "HEAD" none, bad_cmd "HEAD", ["git", "bisect", "run", "pytest"],
        reset_cmd, show_cmd "abc123"], ()) ∧
    code_break_run c9w_runner () true true "reports" ⟨false⟩ =
      (.ok (analyzer_message_with_report "abc123 identified as the first bad commit."
              (report_path "reports" "abc123"), []),
       [reset_cmd, start_cmd "HEAD" none, bad_cmd "HEAD", ["git", "bisect", "run", "pytest"],
        reset_cmd, show_cmd "abc123"], ()) := by
  have th1 := c9_analyzer_behaviour c9w_runner () true "reports" ⟨true⟩
    "abc123 identified as the first bad commit."
    [reset_cmd, start_cmd "HEAD" none, bad_cmd "HEAD", ["git", "bisect", "run", "pytest"],
     reset_cmd] () rfl
  have th2 := c9_analyzer_behaviour c9w_runner () true "reports" ⟨false⟩
    "abc123 identified as the first bad commit."
    [reset_cmd, start_cmd "HEAD" none, bad_cmd "HEAD", ["git", "bisect", "run", "pytest"],
     reset_cmd] () rfl
  exact ⟨th1.2.1 "abc123" rfl rfl rfl, th2.2.1 "abc123" rfl rfl rfl⟩

/-! ### Claim C10 -/

/-- C10: loading settings from a file whose contents fail JSON parsing
silently replaces them with the defaults — an empty disabled-plugin list —
and rewrites the file, so a discovery run over the resulting manager yields
every discovered plugin enabled. -/
theorem c10_corrupt_settings_reset (G A : Type) (git : G) (paths : List (List (Entry G A))) :
    settings_reload .corrupt = (⟨[]⟩, .dict (some [])) ∧
    (∀ states pm', discover (mk_manager git paths .corrupt).1 true = .ok (states, pm') →
      ∀ st ∈ states, st.enabled = true) := by
  refine ⟨rfl, ?_⟩
  intro states pm' h st hst
  obtain ⟨sts, hc, hsteq, _⟩ := discover_true_ok h
  subst hsteq
  have hen := collect_paths_enabled hc st (mem_sort_states.mp hst)
  rw [hen]
  rfl

def c10w_plugin : Plugin Unit Unit :=
  { name := "Alpha", description := "demo plugin", run := fun _ _ => "ran" }

def c10w_entry : Entry Unit Unit :=
  { name := "mod_alpha", load := .hook (.returns (some c10w_plugin)) (.returns none) }

/-- Witness for C10: a manager built over a corrupt store discovers its one
plugin enabled, and the reload replaced the store with the defaults. -/
theorem c10_corrupt_settings_reset_witness :
    settings_reload .corrupt = (⟨[]⟩, .dict (some [])) ∧
    (⟨c10w_plugin, true⟩ : PluginState Unit Unit).enabled = true :=
  have th := c10_corrupt_settings_reset Unit Unit () [[c10w_entry]]
  ⟨th.1, th.2 [⟨c10w_plugin, true⟩] _ rfl ⟨c10w_plugin, true⟩ (List.mem_singleton.mpr rfl)⟩
